import Mathlib

/-!
Verification of the socket address-dispatch index: the `DispatchTable`
(forward/reverse maps for raw, UDP and TCP sockets), its lookup, add and
remove operations, and the `SocketTracker` drop-guard that reconciles the
table when a socket's dispatch-relevant state changes.

Maps backed by `BTreeMap` in the source are embedded as `AList`
(association lists with no duplicate keys); sets backed by `BTreeSet`
are embedded as `Finset`, with the least element playing the role of
`iter().next()`.
-/

namespace Smoltcp

/-- Opaque, totally-ordered socket slot identifier. -/
abbrev SocketHandle := Nat

/-- IP version tag (`IpVersion` in the wire module). -/
inductive IpVersion
  | ipv4
  | ipv6
deriving DecidableEq

/-- IP protocol number (`IpProtocol` in the wire module); only equality matters here. -/
abbrev IpProtocol := Nat

/-- An IP address: the payload is the numeric value of the address bytes
(an injective encoding of `Ipv4Address` / `Ipv6Address`). -/
inductive IpAddress
  | ipv4 (a : Nat)
  | ipv6 (a : Nat)
deriving DecidableEq

/-- `IpAddress::version`. -/
def IpAddress.version : IpAddress → IpVersion
  | .ipv4 _ => .ipv4
  | .ipv6 _ => .ipv6

/-- The all-zero `UNSPECIFIED` address of a given IP version
(`Ipv4Address::UNSPECIFIED` / `Ipv6Address::UNSPECIFIED`). -/
def IpAddress.unspecifiedOfVersion : IpVersion → IpAddress
  | .ipv4 => .ipv4 0
  | .ipv6 => .ipv6 0

/-- A concrete internet endpoint (`IpEndpoint`): address plus port. -/
structure IpEndpoint where
  addr : IpAddress
  port : Nat
deriving DecidableEq

/-- A listen endpoint (`IpListenEndpoint`): optionally wildcarded address plus port. -/
structure IpListenEndpoint where
  addr : Option IpAddress
  port : Nat
deriving DecidableEq

/-- Modelled from the spec: `IpListenEndpoint::is_specified` (declared in the
wire module, outside this excerpt).  Per the spec a UDP socket is indexed once
it has a concrete port or a specified address, and the add is skipped exactly
when the endpoint has both an unspecified address and port 0; the matching
reading of the guard `!is_specified() && port == 0` is that an endpoint is
specified when its address is present or its port is nonzero. -/
def IpListenEndpoint.is_specified (e : IpListenEndpoint) : Bool :=
  e.addr.isSome || e.port != 0

/-- Modelled from the spec: `From<IpEndpoint> for IpListenEndpoint` (declared in
the wire module, outside this excerpt).  Per the spec an explicit
unspecified-address bind and the true wildcard are *different* keys, so the
conversion keeps the address as `some`. -/
def IpEndpoint.toListen (e : IpEndpoint) : IpListenEndpoint :=
  ⟨some e.addr, e.port⟩

/-- Modelled from the spec: `From<u16> for IpListenEndpoint` — the
wildcard-address ("bound port only") key. -/
def IpListenEndpoint.ofPort (p : Nat) : IpListenEndpoint :=
  ⟨none, p⟩

/-- The address fields of a parsed IP header (`IpRepr` is consumed only
through its `src_addr`/`dst_addr` accessors). -/
structure IpRepr where
  src_addr : IpAddress
  dst_addr : IpAddress
deriving DecidableEq

/-- The port fields of a parsed UDP header. -/
structure UdpRepr where
  src_port : Nat
  dst_port : Nat
deriving DecidableEq

/-- The port fields of a parsed TCP header. -/
structure TcpRepr where
  src_port : Nat
  dst_port : Nat
deriving DecidableEq

/-- Equality of constant-valued association lists is decided by comparing the
entry lists, so that concrete tables evaluate inside the kernel. -/
instance {K V : Type} [DecidableEq K] [DecidableEq V] :
    DecidableEq (AList (fun _ : K => V)) := fun xs ys =>
  decidable_of_iff (xs.entries = ys.entries) ⟨AList.ext, fun h => by rw [h]⟩

/-- Per-local-endpoint TCP bucket: a set of listening handles and a map from
remote endpoint to established handle (`TcpLocalEndpoint` in the source). -/
structure TcpLocalEndpoint where
  listen_sockets : Finset SocketHandle
  established_sockets : AList (fun _ : IpEndpoint => SocketHandle)
deriving DecidableEq

instance : Inhabited TcpLocalEndpoint := ⟨⟨∅, ∅⟩⟩

/-- The dispatch table: three forward maps and their reverse maps. -/
structure DispatchTable where
  raw : AList (fun _ : IpVersion × IpProtocol => SocketHandle)
  udp : AList (fun _ : IpListenEndpoint => SocketHandle)
  tcp : AList (fun _ : IpListenEndpoint => TcpLocalEndpoint)
  rev_raw : AList (fun _ : SocketHandle => IpVersion × IpProtocol)
  rev_udp : AList (fun _ : SocketHandle => IpListenEndpoint)
  rev_tcp : AList (fun _ : SocketHandle => IpListenEndpoint × Option IpEndpoint)
deriving DecidableEq

/-- `DispatchTable::default()`: the empty table. -/
def DispatchTable.empty : DispatchTable :=
  ⟨∅, ∅, ∅, ∅, ∅, ∅⟩

/-- `BTreeSet::iter().next()`: the least element of the listening set, if any. -/
def TcpLocalEndpoint.next_listen (ep : TcpLocalEndpoint) : Option SocketHandle :=
  if h : ep.listen_sockets.Nonempty then some (ep.listen_sockets.min' h) else none

/-- The three-step local-endpoint resolution shared by the TCP lookup:
(destination address, port), then (wildcard, port), then
(explicit unspecified address of the packet's version, port). -/
def DispatchTable.tcp_entry_lookup (t : DispatchTable) (dst_addr : IpAddress)
    (dst_port : Nat) : Option TcpLocalEndpoint :=
  (t.tcp.lookup (IpEndpoint.toListen ⟨dst_addr, dst_port⟩)).orElse fun _ =>
    (t.tcp.lookup (IpListenEndpoint.ofPort dst_port)).orElse fun _ =>
      t.tcp.lookup (IpEndpoint.toListen
        ⟨IpAddress.unspecifiedOfVersion dst_addr.version, dst_port⟩)

/-- `DispatchTable::get_tcp_socket`. -/
def DispatchTable.get_tcp_socket (t : DispatchTable) (ip_repr : IpRepr)
    (tcp_repr : TcpRepr) : Option SocketHandle :=
  match t.tcp_entry_lookup ip_repr.dst_addr tcp_repr.dst_port with
  | none => none
  | some local_endpoint =>
    (local_endpoint.established_sockets.lookup
        ⟨ip_repr.src_addr, tcp_repr.src_port⟩).orElse fun _ =>
      local_endpoint.next_listen

/-- `DispatchTable::get_udp_socket`. -/
def DispatchTable.get_udp_socket (t : DispatchTable) (ip_repr : IpRepr)
    (udp_repr : UdpRepr) : Option SocketHandle :=
  (t.udp.lookup (IpEndpoint.toListen ⟨ip_repr.dst_addr, udp_repr.dst_port⟩)).orElse fun _ =>
    (t.udp.lookup (IpListenEndpoint.ofPort udp_repr.dst_port)).orElse fun _ =>
      t.udp.lookup (IpEndpoint.toListen
        ⟨IpAddress.unspecifiedOfVersion ip_repr.dst_addr.version, udp_repr.dst_port⟩)

/-- `DispatchTable::get_raw_socket`. -/
def DispatchTable.get_raw_socket (t : DispatchTable) (ip_version : IpVersion)
    (ip_protocol : IpProtocol) : Option SocketHandle :=
  t.raw.lookup (ip_version, ip_protocol)

/-- `AddError`; an add call returns `none` for `Ok(())` and
`some .AlreadyInUse` for `Err(AddError::AlreadyInUse)`. -/
inductive AddError
  | AlreadyInUse
deriving DecidableEq

/-- `RemoveError`; a remove call returns `none` for `Ok(())` and
`some .SocketNotFound` for `Err(RemoveError::SocketNotFound)`. -/
inductive RemoveError
  | SocketNotFound
deriving DecidableEq

/-- The dispatch-relevant face of `raw::Socket`: its protocol binding and
dirty-tracking flags. -/
structure RawSocket where
  ip_version : IpVersion
  ip_protocol : IpProtocol
  dirty : Bool
  on_dirty_list : Bool
deriving DecidableEq

/-- The dispatch-relevant face of `udp::Socket`: its bound endpoint and
dirty-tracking flags. -/
structure UdpSocket where
  endpoint : IpListenEndpoint
  dirty : Bool
  on_dirty_list : Bool
deriving DecidableEq

/-- `tcp::State`: the externally observable TCP connection state. -/
inductive TcpState
  | Closed
  | Listen
  | SynSent
  | SynReceived
  | Established
  | FinWait1
  | FinWait2
  | CloseWait
  | Closing
  | LastAck
  | TimeWait
deriving DecidableEq

/-- The dispatch-relevant face of `tcp::Socket`: its state, its endpoints and
dirty-tracking flags. -/
structure TcpSocket where
  state : TcpState
  listen_endpoint : Option IpListenEndpoint
  local_endpoint : Option IpEndpoint
  remote_endpoint : Option IpEndpoint
  dirty : Bool
  on_dirty_list : Bool
deriving DecidableEq

/-- The effective local endpoint used by `add_tcp_socket`:
`socket.listen_endpoint().or_else(|| socket.local_endpoint().map(Into::into))`. -/
def TcpSocket.effective_listen (s : TcpSocket) : Option IpListenEndpoint :=
  s.listen_endpoint.or (s.local_endpoint.map IpEndpoint.toListen)

/-- `DispatchTable::add_raw_socket`. -/
def DispatchTable.add_raw_socket (t : DispatchTable) (socket : RawSocket)
    (handle : SocketHandle) : DispatchTable × Option AddError :=
  let key := (socket.ip_version, socket.ip_protocol)
  if key ∉ t.raw ∧ handle ∉ t.rev_raw then
    ({ t with
        raw := t.raw.insert key handle
        rev_raw := t.rev_raw.insert handle key },
      none)
  else
    (t, some .AlreadyInUse)

/-- `DispatchTable::add_udp_socket`. -/
def DispatchTable.add_udp_socket (t : DispatchTable) (socket : UdpSocket)
    (handle : SocketHandle) : DispatchTable × Option AddError :=
  if socket.endpoint.is_specified = false ∧ socket.endpoint.port = 0 then
    (t, none)
  else if socket.endpoint ∉ t.udp ∧ handle ∉ t.rev_udp then
    ({ t with
        udp := t.udp.insert socket.endpoint handle
        rev_udp := t.rev_udp.insert handle socket.endpoint },
      none)
  else
    (t, some .AlreadyInUse)

/-- `DispatchTable::add_tcp_socket`.  The error return after
`self.tcp.entry(..).or_insert_with(..)` keeps the map produced by that
`or_insert_with`, exactly as the early `return` in the source does. -/
def DispatchTable.add_tcp_socket (t : DispatchTable) (socket : TcpSocket)
    (handle : SocketHandle) : DispatchTable × Option AddError :=
  match socket.effective_listen with
  | none => (t, none)
  | some listen_endpoint =>
    if handle ∈ t.rev_tcp then
      (t, some .AlreadyInUse)
    else
      let cur := (t.tcp.lookup listen_endpoint).getD default
      let tcp1 := if listen_endpoint ∈ t.tcp then t.tcp
                  else t.tcp.insert listen_endpoint default
      match socket.remote_endpoint with
      | some remote_endpoint =>
        if remote_endpoint ∈ cur.established_sockets then
          ({ t with tcp := tcp1 }, some .AlreadyInUse)
        else
          ({ t with
              tcp := t.tcp.insert listen_endpoint
                { cur with established_sockets :=
                    cur.established_sockets.insert remote_endpoint handle }
              rev_tcp := t.rev_tcp.insert handle (listen_endpoint, some remote_endpoint) },
            none)
      | none =>
          ({ t with
              tcp := t.tcp.insert listen_endpoint
                { cur with listen_sockets := insert handle cur.listen_sockets }
              rev_tcp := t.rev_tcp.insert handle (listen_endpoint, none) },
            none)

/-- `DispatchTable::remove_raw_socket`. -/
def DispatchTable.remove_raw_socket (t : DispatchTable)
    (handle : SocketHandle) : DispatchTable × Option RemoveError :=
  match t.rev_raw.lookup handle with
  | none => (t, some .SocketNotFound)
  | some key =>
    match t.raw.lookup key with
    | none => (t, some .SocketNotFound)
    | some _ =>
      ({ t with
          raw := t.raw.erase key
          rev_raw := t.rev_raw.erase handle },
        none)

/-- `DispatchTable::remove_udp_socket`. -/
def DispatchTable.remove_udp_socket (t : DispatchTable)
    (handle : SocketHandle) : DispatchTable × Option RemoveError :=
  match t.rev_udp.lookup handle with
  | none => (t, some .SocketNotFound)
  | some key =>
    match t.udp.lookup key with
    | none => (t, some .SocketNotFound)
    | some _ =>
      ({ t with
          udp := t.udp.erase key
          rev_udp := t.rev_udp.erase handle },
        none)

/-- The tail of `remove_tcp_socket`: write back the shrunken bucket, erasing it
when both sub-collections became empty, and drop the reverse entry. -/
def DispatchTable.finish_remove_tcp (t : DispatchTable) (handle : SocketHandle)
    (local_endpoint : IpListenEndpoint) (new_ep : TcpLocalEndpoint) : DispatchTable :=
  { t with
    tcp :=
      if new_ep.listen_sockets = ∅ ∧ new_ep.established_sockets = ∅ then
        t.tcp.erase local_endpoint
      else
        t.tcp.insert local_endpoint new_ep
    rev_tcp := t.rev_tcp.erase handle }

/-- `DispatchTable::remove_tcp_socket`. -/
def DispatchTable.remove_tcp_socket (t : DispatchTable)
    (handle : SocketHandle) : DispatchTable × Option RemoveError :=
  match t.rev_tcp.lookup handle with
  | none => (t, some .SocketNotFound)
  | some (local_endpoint, remote_endpoint) =>
    match t.tcp.lookup local_endpoint with
    | none => (t, some .SocketNotFound)
    | some tcp_endpoint =>
      match remote_endpoint with
      | some re =>
        if re ∈ tcp_endpoint.established_sockets then
          (t.finish_remove_tcp handle local_endpoint
            { tcp_endpoint with
              established_sockets := tcp_endpoint.established_sockets.erase re },
            none)
        else
          (t, some .SocketNotFound)
      | none =>
        if handle ∈ tcp_endpoint.listen_sockets then
          (t.finish_remove_tcp handle local_endpoint
            { tcp_endpoint with
              listen_sockets := tcp_endpoint.listen_sockets.erase handle },
            none)
        else
          (t, some .SocketNotFound)

/-- The `TrackedSocket` capability: snapshot capture, drop-time reconciliation
and dirty-list flag access, as a record of operations over a socket kind `T`
with snapshot type `S`. -/
structure TrackerOps (T : Type) (S : Type) where
  new_state : T → S
  on_drop : S → T → DispatchTable → SocketHandle → DispatchTable
  is_dirty : T → Bool
  is_on_dirty_list : T → Bool
  set_on_dirty_list : T → Bool → T

/-- `<udp::Socket as TrackedSocket>::on_drop`: when the endpoint changed,
remove the old entry if the snapshot endpoint was specified, then always add
the new entry (error results are only `debug_assert`ed in the source). -/
def udp_on_drop (old_endpoint : IpListenEndpoint) (socket : UdpSocket)
    (dispatch_table : DispatchTable) (handle : SocketHandle) : DispatchTable :=
  if old_endpoint ≠ socket.endpoint then
    let t1 := if old_endpoint.is_specified then
                (dispatch_table.remove_udp_socket handle).1
              else
                dispatch_table
    (t1.add_udp_socket socket handle).1
  else
    dispatch_table

/-- `<tcp::Socket as TrackedSocket>::on_drop`: diff the snapshot connection
state against the current one and issue the matching remove/add calls. -/
def tcp_on_drop (state : TcpState) (socket : TcpSocket)
    (dispatch_table : DispatchTable) (handle : SocketHandle) : DispatchTable :=
  if state = socket.state then
    dispatch_table
  else
    match state, socket.state with
    | _, .Closed => (dispatch_table.remove_tcp_socket handle).1
    | .Closed, _ => (dispatch_table.add_tcp_socket socket handle).1
    | .TimeWait, _
    | .Listen, _ =>
      let t1 := (dispatch_table.remove_tcp_socket handle).1
      (t1.add_tcp_socket socket handle).1
    | _, _ => dispatch_table

/-- `TrackedSocket for raw::Socket`: unit snapshot, default (no-op) `on_drop`. -/
def rawOps : TrackerOps RawSocket Unit where
  new_state _ := ()
  on_drop _ _ t _ := t
  is_dirty s := s.dirty
  is_on_dirty_list s := s.on_dirty_list
  set_on_dirty_list s b := { s with on_dirty_list := b }

/-- `TrackedSocket for udp::Socket`: the snapshot is the bound endpoint. -/
def udpOps : TrackerOps UdpSocket IpListenEndpoint where
  new_state s := s.endpoint
  on_drop := udp_on_drop
  is_dirty s := s.dirty
  is_on_dirty_list s := s.on_dirty_list
  set_on_dirty_list s b := { s with on_dirty_list := b }

/-- `TrackedSocket for tcp::Socket`: the snapshot is the connection state. -/
def tcpOps : TrackerOps TcpSocket TcpState where
  new_state s := s.state
  on_drop := tcp_on_drop
  is_dirty s := s.dirty
  is_on_dirty_list s := s.on_dirty_list
  set_on_dirty_list s b := { s with on_dirty_list := b }

/-- `TrackedSocket for icmp::Socket`: never dirty, never indexed. -/
def icmpOps : TrackerOps Unit Unit where
  new_state _ := ()
  on_drop _ _ t _ := t
  is_dirty _ := false
  is_on_dirty_list _ := false
  set_on_dirty_list s _ := s

/-- `TrackedSocket for dhcpv4::Socket`: never dirty, never indexed. -/
def dhcpv4Ops : TrackerOps Unit Unit where
  new_state _ := ()
  on_drop _ _ t _ := t
  is_dirty _ := false
  is_on_dirty_list _ := false
  set_on_dirty_list s _ := s

/-- `TrackedSocket for dns::Socket`: never dirty, never indexed. -/
def dnsOps : TrackerOps Unit Unit where
  new_state _ := ()
  on_drop _ _ t _ := t
  is_dirty _ := false
  is_on_dirty_list _ := false
  set_on_dirty_list s _ := s

/-- `impl Drop for SocketTracker`: run the per-kind `on_drop` against the
table, then enqueue the handle on the dirty set (and raise the socket's
on-dirty-list flag) exactly when the socket is dirty and not yet on the list.
Returns the new table, the new dirty set and the socket as left behind. -/
def trackerRelease {T S : Type} (ops : TrackerOps T S) (state : S) (socket : T)
    (dispatch_table : DispatchTable) (dirty_sockets : Finset SocketHandle)
    (handle : SocketHandle) : DispatchTable × Finset SocketHandle × T :=
  let t1 := ops.on_drop state socket dispatch_table handle
  if ops.is_on_dirty_list socket = false ∧ ops.is_dirty socket = true then
    (t1, insert handle dirty_sockets, ops.set_on_dirty_list socket true)
  else
    (t1, dirty_sockets, socket)

/-- One successful table mutation: any `add_*_socket`/`remove_*_socket` call
that returned `Ok(())`. -/
inductive Step : DispatchTable → DispatchTable → Prop
  | add_raw (t : DispatchTable) (s : RawSocket) (h : SocketHandle) :
      (t.add_raw_socket s h).2 = none → Step t (t.add_raw_socket s h).1
  | add_udp (t : DispatchTable) (s : UdpSocket) (h : SocketHandle) :
      (t.add_udp_socket s h).2 = none → Step t (t.add_udp_socket s h).1
  | add_tcp (t : DispatchTable) (s : TcpSocket) (h : SocketHandle) :
      (t.add_tcp_socket s h).2 = none → Step t (t.add_tcp_socket s h).1
  | remove_raw (t : DispatchTable) (h : SocketHandle) :
      (t.remove_raw_socket h).2 = none → Step t (t.remove_raw_socket h).1
  | remove_udp (t : DispatchTable) (h : SocketHandle) :
      (t.remove_udp_socket h).2 = none → Step t (t.remove_udp_socket h).1
  | remove_tcp (t : DispatchTable) (h : SocketHandle) :
      (t.remove_tcp_socket h).2 = none → Step t (t.remove_tcp_socket h).1

/-- Tables reachable from the empty table by successful add/remove calls. -/
inductive Reachable : DispatchTable → Prop
  | empty : Reachable DispatchTable.empty
  | step {t t' : DispatchTable} : Reachable t → Step t t' → Reachable t'

/-- Mutual forward/reverse consistency of the raw sub-table. -/
def RawConsistent (t : DispatchTable) : Prop :=
  ∀ h k, t.rev_raw.lookup h = some k ↔ t.raw.lookup k = some h

/-- Mutual forward/reverse consistency of the UDP sub-table. -/
def UdpConsistent (t : DispatchTable) : Prop :=
  ∀ h k, t.rev_udp.lookup h = some k ↔ t.udp.lookup k = some h

/-- Membership of a handle in a TCP bucket under a recorded optional remote
endpoint: established slot when `some`, listening set when `none`. -/
def TcpInEntry (ep : TcpLocalEndpoint) (rm : Option IpEndpoint)
    (h : SocketHandle) : Prop :=
  match rm with
  | some re => ep.established_sockets.lookup re = some h
  | none => h ∈ ep.listen_sockets

/-- Mutual forward/reverse consistency of the TCP sub-table. -/
def TcpConsistent (t : DispatchTable) : Prop :=
  ∀ h le rm, t.rev_tcp.lookup h = some (le, rm) ↔
    ∃ ep, t.tcp.lookup le = some ep ∧ TcpInEntry ep rm h

/-- Forward/reverse consistency of all three sub-tables. -/
def Consistent (t : DispatchTable) : Prop :=
  RawConsistent t ∧ UdpConsistent t ∧ TcpConsistent t

/-- The TCP sub-table holds no bucket whose listening set and established map
are both empty. -/
def NoEmptyEntry (t : DispatchTable) : Prop :=
  ∀ le ep, t.tcp.lookup le = some ep →
    ep.listen_sockets ≠ ∅ ∨ ep.established_sockets ≠ ∅

/-- Every key recorded in the UDP reverse map is addressable (not both
wildcard address and port 0). -/
def UdpKeysAddressable (t : DispatchTable) : Prop :=
  ∀ h k, t.rev_udp.lookup h = some k → ¬(k.is_specified = false ∧ k.port = 0)

/-- The inductive invariant maintained by all successful table mutations. -/
def Invariant (t : DispatchTable) : Prop :=
  Consistent t ∧ NoEmptyEntry t ∧ UdpKeysAddressable t

/-! Concrete sockets and tables used to exercise the theorems. -/

/-- A raw socket bound to (IPv4, protocol 17). -/
def rawSocketA : RawSocket := ⟨.ipv4, 17, false, false⟩

/-- A UDP socket bound to (1.2.3.4, 80); 16909060 is the numeric value of 1.2.3.4. -/
def udpSocketA : UdpSocket := ⟨⟨some (.ipv4 16909060), 80⟩, false, false⟩

/-- A UDP socket bound to the wildcard address at port 80. -/
def udpSocketB : UdpSocket := ⟨⟨none, 80⟩, false, false⟩

/-- A TCP socket listening at the wildcard local endpoint (*, 80). -/
def tcpListenerSocket : TcpSocket :=
  ⟨.Listen, some ⟨none, 80⟩, none, none, false, false⟩

/-- An established TCP socket at local endpoint (*, 80) with remote
(9.9.9.9, 1234); 151587081 is the numeric value of 9.9.9.9. -/
def tcpEstablishedSocket : TcpSocket :=
  ⟨.Established, some ⟨none, 80⟩, none, some ⟨.ipv4 151587081, 1234⟩, false, false⟩

/-- UDP example: socket 1 at (1.2.3.4, 80), socket 2 at the wildcard key. -/
def udpExampleTable : DispatchTable :=
  ((DispatchTable.empty.add_udp_socket udpSocketA 1).1.add_udp_socket udpSocketB 2).1

/-- TCP example: listener 1 and established socket 2 at (*, 80). -/
def tcpExampleTable : DispatchTable :=
  ((DispatchTable.empty.add_tcp_socket tcpListenerSocket 1).1.add_tcp_socket
    tcpEstablishedSocket 2).1

/-- TCP example: a single listener, handle 1, at (*, 80). -/
def tcpSingleTable : DispatchTable :=
  (DispatchTable.empty.add_tcp_socket tcpListenerSocket 1).1

/-- The sole registration of a TCP bucket, as recorded by the reverse entry:
erasing it leaves both sub-collections of the bucket empty. -/
def LastOccupant (ep : TcpLocalEndpoint) (rm : Option IpEndpoint)
    (h : SocketHandle) : Prop :=
  match rm with
  | some re => re ∈ ep.established_sockets ∧ ep.listen_sockets = ∅ ∧
      ep.established_sockets.erase re = ∅
  | none => h ∈ ep.listen_sockets ∧ ep.established_sockets = ∅ ∧
      ep.listen_sockets.erase h = ∅

/-- Inserting a fresh key/value pair into both sides of a mutually consistent
forward/reverse map pair keeps them mutually consistent. -/
lemma alist_biject_insert {K V : Type} [DecidableEq K] [DecidableEq V]
    {fwd : AList (fun _ : K => V)} {rev : AList (fun _ : V => K)}
    (inv : ∀ v k, rev.lookup v = some k ↔ fwd.lookup k = some v)
    {k : K} {v : V} (hk : k ∉ fwd) (hv : v ∉ rev) :
    ∀ v' k', (rev.insert v k).lookup v' = some k' ↔
      (fwd.insert k v).lookup k' = some v' := by
  intro v' k'
  rcases eq_or_ne v' v with rfl | ev
  · rw [AList.lookup_insert]
    rcases eq_or_ne k' k with rfl | ek
    · rw [AList.lookup_insert]; simp
    · rw [AList.lookup_insert_ne ek]
      constructor
      · intro hx; injection hx with hx; exact absurd hx.symm ek
      · intro hx
        have hb := (inv v' k').mpr hx
        rw [AList.lookup_eq_none.mpr hv] at hb
        exact Option.noConfusion hb
  · rw [AList.lookup_insert_ne ev]
    rcases eq_or_ne k' k with rfl | ek
    · rw [AList.lookup_insert]
      constructor
      · intro hx
        have hb := (inv v' k').mp hx
        rw [AList.lookup_eq_none.mpr hk] at hb
        exact Option.noConfusion hb
      · intro hx; injection hx with hx; exact absurd hx.symm ev
    · rw [AList.lookup_insert_ne ek]
      exact inv v' k'

/-- Erasing a registered key/value pair from both sides of a mutually
consistent forward/reverse map pair keeps them mutually consistent. -/
lemma alist_biject_erase {K V : Type} [DecidableEq K] [DecidableEq V]
    {fwd : AList (fun _ : K => V)} {rev : AList (fun _ : V => K)}
    (inv : ∀ v k, rev.lookup v = some k ↔ fwd.lookup k = some v)
    {k : K} {v : V} (hv : rev.lookup v = some k) :
    ∀ v' k', (rev.erase v).lookup v' = some k' ↔
      (fwd.erase k).lookup k' = some v' := by
  intro v' k'
  have hfwd : fwd.lookup k = some v := (inv v k).mp hv
  rcases eq_or_ne v' v with rfl | ev
  · rw [AList.lookup_erase]
    rcases eq_or_ne k' k with rfl | ek
    · rw [AList.lookup_erase]; simp
    · rw [AList.lookup_erase_ne ek]
      constructor
      · intro hx; exact Option.noConfusion hx
      · intro hx
        have hb := (inv v' k').mpr hx
        rw [hv] at hb
        injection hb with hb
        exact absurd hb.symm ek
  · rw [AList.lookup_erase_ne ev]
    rcases eq_or_ne k' k with rfl | ek
    · rw [AList.lookup_erase]
      constructor
      · intro hx
        have hb := (inv v' k').mp hx
        rw [hfwd] at hb
        injection hb with hb
        exact absurd hb.symm ev
      · intro hx; exact Option.noConfusion hx
    · rw [AList.lookup_erase_ne ek]
      exact inv v' k'

/-- The empty table satisfies the invariant. -/
lemma invariant_empty : Invariant DispatchTable.empty := by
  refine ⟨⟨fun h k => ?_, fun h k => ?_, fun h le rm => ?_⟩,
    fun le ep hle => ?_, fun h k hk => ?_⟩ <;>
    simp [DispatchTable.empty, AList.lookup_empty] at *

/-- `add_raw_socket` preserves the invariant. -/
lemma invariant_add_raw {t : DispatchTable} (s : RawSocket) (h : SocketHandle)
    (inv : Invariant t) : Invariant (t.add_raw_socket s h).1 := by
  obtain ⟨⟨hraw, hudp, htcp⟩, hne, hua⟩ := inv
  unfold DispatchTable.add_raw_socket
  by_cases hc : (s.ip_version, s.ip_protocol) ∉ t.raw ∧ h ∉ t.rev_raw
  · rw [if_pos hc]
    exact ⟨⟨alist_biject_insert hraw hc.1 hc.2, hudp, htcp⟩, hne, hua⟩
  · rw [if_neg hc]
    exact ⟨⟨hraw, hudp, htcp⟩, hne, hua⟩

/-- `add_udp_socket` preserves the invariant. -/
lemma invariant_add_udp {t : DispatchTable} (s : UdpSocket) (h : SocketHandle)
    (inv : Invariant t) : Invariant (t.add_udp_socket s h).1 := by
  obtain ⟨⟨hraw, hudp, htcp⟩, hne, hua⟩ := inv
  unfold DispatchTable.add_udp_socket
  by_cases hskip : s.endpoint.is_specified = false ∧ s.endpoint.port = 0
  · rw [if_pos hskip]
    exact ⟨⟨hraw, hudp, htcp⟩, hne, hua⟩
  · rw [if_neg hskip]
    by_cases hc : s.endpoint ∉ t.udp ∧ h ∉ t.rev_udp
    · rw [if_pos hc]
      refine ⟨⟨hraw, alist_biject_insert hudp hc.1 hc.2, htcp⟩, hne, ?_⟩
      intro h' k' hk'
      by_cases eh : h' = h
      · subst eh
        rw [AList.lookup_insert] at hk'
        injection hk' with hk'
        subst hk'
        exact hskip
      · rw [AList.lookup_insert_ne eh] at hk'
        exact hua h' k' hk'
    · rw [if_neg hc]
      exact ⟨⟨hraw, hudp, htcp⟩, hne, hua⟩

/-- `remove_raw_socket` preserves the invariant. -/
lemma invariant_remove_raw {t : DispatchTable} (h : SocketHandle)
    (inv : Invariant t) : Invariant (t.remove_raw_socket h).1 := by
  obtain ⟨⟨hraw, hudp, htcp⟩, hne, hua⟩ := inv
  unfold DispatchTable.remove_raw_socket
  cases hrev : t.rev_raw.lookup h with
  | none => exact ⟨⟨hraw, hudp, htcp⟩, hne, hua⟩
  | some key =>
    dsimp only
    cases hfwd : t.raw.lookup key with
    | none => exact ⟨⟨hraw, hudp, htcp⟩, hne, hua⟩
    | some v =>
      dsimp only
      exact ⟨⟨alist_biject_erase hraw hrev, hudp, htcp⟩, hne, hua⟩

/-- `remove_udp_socket` preserves the invariant. -/
lemma invariant_remove_udp {t : DispatchTable} (h : SocketHandle)
    (inv : Invariant t) : Invariant (t.remove_udp_socket h).1 := by
  obtain ⟨⟨hraw, hudp, htcp⟩, hne, hua⟩ := inv
  unfold DispatchTable.remove_udp_socket
  cases hrev : t.rev_udp.lookup h with
  | none => exact ⟨⟨hraw, hudp, htcp⟩, hne, hua⟩
  | some key =>
    dsimp only
    cases hfwd : t.udp.lookup key with
    | none => exact ⟨⟨hraw, hudp, htcp⟩, hne, hua⟩
    | some v =>
      dsimp only
      refine ⟨⟨hraw, alist_biject_erase hudp hrev, htcp⟩, hne, ?_⟩
      intro h' k' hk'
      rcases eq_or_ne h' h with rfl | eh
      · rw [AList.lookup_erase] at hk'
        exact Option.noConfusion hk'
      · rw [AList.lookup_erase_ne eh] at hk'
        exact hua h' k' hk'

/-- A map with a successful lookup is not empty. -/
lemma alist_lookup_ne_empty {K V : Type} [DecidableEq K]
    {s : AList (fun _ : K => V)} {a : K} {b : V}
    (hx : s.lookup a = some b) : s ≠ ∅ := by
  intro he
  rw [he, AList.lookup_empty] at hx
  exact Option.noConfusion hx

/-- When the key is present, `lookup` returns exactly the `getD default` view. -/
lemma lookup_eq_getD_of_mem
    {tcpm : AList (fun _ : IpListenEndpoint => TcpLocalEndpoint)}
    {le : IpListenEndpoint} (hm : le ∈ tcpm) :
    tcpm.lookup le = some ((tcpm.lookup le).getD default) := by
  obtain ⟨b, hb⟩ := Option.isSome_iff_exists.mp (AList.lookup_isSome.mpr hm)
  rw [hb]
  rfl

/-- No handle belongs to the default (empty) TCP bucket. -/
lemma not_tcpInEntry_default (rm : Option IpEndpoint) (h : SocketHandle) :
    ¬ TcpInEntry default rm h := by
  cases rm with
  | some re =>
    intro hx
    have hx' : (∅ : AList (fun _ : IpEndpoint => SocketHandle)).lookup re = some h := hx
    rw [AList.lookup_empty] at hx'
    exact Option.noConfusion hx'
  | none =>
    intro hx
    have hx' : h ∈ (∅ : Finset SocketHandle) := hx
    simp at hx'

/-- The TCP consistency iff, after registering a fresh established socket. -/
lemma tcp_iff_insert_est
    {tcpm : AList (fun _ : IpListenEndpoint => TcpLocalEndpoint)}
    {revm : AList (fun _ : SocketHandle => IpListenEndpoint × Option IpEndpoint)}
    (htcp : ∀ h le rm, revm.lookup h = some (le, rm) ↔
      ∃ ep, tcpm.lookup le = some ep ∧ TcpInEntry ep rm h)
    {le : IpListenEndpoint} {re : IpEndpoint} {h : SocketHandle}
    (hrevn : revm.lookup h = none)
    (hest : ((tcpm.lookup le).getD default).established_sockets.lookup re = none) :
    ∀ h' le' rm', (revm.insert h (le, some re)).lookup h' = some (le', rm') ↔
      ∃ ep, (tcpm.insert le
          { (tcpm.lookup le).getD default with
            established_sockets :=
              ((tcpm.lookup le).getD default).established_sockets.insert re h
            }).lookup le' = some ep ∧ TcpInEntry ep rm' h' := by
  intro h' le' rm'
  rcases eq_or_ne h' h with rfl | eh
  · rw [AList.lookup_insert]
    constructor
    · intro hx
      injection hx with hx
      injection hx with hx1 hx2
      subst hx1
      subst hx2
      exact ⟨_, AList.lookup_insert _, AList.lookup_insert _⟩
    · rintro ⟨ep, hep, hin⟩
      rcases eq_or_ne le' le with rfl | el
      · rw [AList.lookup_insert] at hep
        injection hep with hep
        subst hep
        cases rm' with
        | some re' =>
          rcases eq_or_ne re' re with rfl | er
          · rfl
          · exfalso
            have hin' : ((tcpm.lookup le').getD default).established_sockets.lookup re'
                = some h' := by
              have hx : (((tcpm.lookup le').getD default).established_sockets.insert re
                  h').lookup re' = some h' := hin
              rwa [AList.lookup_insert_ne er] at hx
            by_cases hm : le' ∈ tcpm
            · have hb := (htcp h' le' (some re')).mpr
                ⟨_, lookup_eq_getD_of_mem hm, hin'⟩
              rw [hrevn] at hb
              exact Option.noConfusion hb
            · rw [AList.lookup_eq_none.mpr hm] at hin'
              have hx' : (∅ : AList (fun _ : IpEndpoint => SocketHandle)).lookup re'
                  = some h' := hin'
              rw [AList.lookup_empty] at hx'
              exact Option.noConfusion hx'
        | none =>
          exfalso
          have hin' : h' ∈ ((tcpm.lookup le').getD default).listen_sockets := hin
          by_cases hm : le' ∈ tcpm
          · have hb := (htcp h' le' none).mpr ⟨_, lookup_eq_getD_of_mem hm, hin'⟩
            rw [hrevn] at hb
            exact Option.noConfusion hb
          · rw [AList.lookup_eq_none.mpr hm] at hin'
            have hx' : h' ∈ (∅ : Finset SocketHandle) := hin'
            simp at hx'
      · exfalso
        rw [AList.lookup_insert_ne el] at hep
        have hb := (htcp h' le' rm').mpr ⟨ep, hep, hin⟩
        rw [hrevn] at hb
        exact Option.noConfusion hb
  · rw [AList.lookup_insert_ne eh]
    rcases eq_or_ne le' le with rfl | el
    · constructor
      · intro hx
        obtain ⟨ep, hep, hin⟩ := (htcp h' le' rm').mp hx
        have hmem : le' ∈ tcpm := AList.lookup_isSome.mp (by rw [hep]; rfl)
        have hepc : ep = (tcpm.lookup le').getD default := by
          rw [hep]
          rfl
        refine ⟨_, AList.lookup_insert _, ?_⟩
        cases rm' with
        | some re' =>
          have hin' : ep.established_sockets.lookup re' = some h' := hin
          have er : re' ≠ re := by
            intro hre
            subst hre
            rw [hepc, hest] at hin'
            exact Option.noConfusion hin'
          show (((tcpm.lookup le').getD default).established_sockets.insert re
              h).lookup re' = some h'
          rw [AList.lookup_insert_ne er, ← hepc]
          exact hin'
        | none =>
          show h' ∈ ((tcpm.lookup le').getD default).listen_sockets
          rw [← hepc]
          exact hin
      · rintro ⟨ep, hep, hin⟩
        rw [AList.lookup_insert] at hep
        injection hep with hep
        subst hep
        cases rm' with
        | some re' =>
          have hin' : (((tcpm.lookup le').getD default).established_sockets.insert re
              h).lookup re' = some h' := hin
          rcases eq_or_ne re' re with rfl | er
          · rw [AList.lookup_insert] at hin'
            injection hin' with hin'
            exact absurd hin'.symm eh
          · rw [AList.lookup_insert_ne er] at hin'
            by_cases hm : le' ∈ tcpm
            · exact (htcp h' le' (some re')).mpr ⟨_, lookup_eq_getD_of_mem hm, hin'⟩
            · rw [AList.lookup_eq_none.mpr hm] at hin'
              have hx' : (∅ : AList (fun _ : IpEndpoint => SocketHandle)).lookup re'
                  = some h' := hin'
              rw [AList.lookup_empty] at hx'
              exact Option.noConfusion hx'
        | none =>
          have hin' : h' ∈ ((tcpm.lookup le').getD default).listen_sockets := hin
          by_cases hm : le' ∈ tcpm
          · exact (htcp h' le' none).mpr ⟨_, lookup_eq_getD_of_mem hm, hin'⟩
          · rw [AList.lookup_eq_none.mpr hm] at hin'
            have hx' : h' ∈ (∅ : Finset SocketHandle) := hin'
            simp at hx'
    · rw [AList.lookup_insert_ne el]
      exact htcp h' le' rm'

/-- The TCP consistency iff, after registering a fresh listening socket. -/
lemma tcp_iff_insert_listen
    {tcpm : AList (fun _ : IpListenEndpoint => TcpLocalEndpoint)}
    {revm : AList (fun _ : SocketHandle => IpListenEndpoint × Option IpEndpoint)}
    (htcp : ∀ h le rm, revm.lookup h = some (le, rm) ↔
      ∃ ep, tcpm.lookup le = some ep ∧ TcpInEntry ep rm h)
    {le : IpListenEndpoint} {h : SocketHandle}
    (hrevn : revm.lookup h = none) :
    ∀ h' le' rm', (revm.insert h (le, none)).lookup h' = some (le', rm') ↔
      ∃ ep, (tcpm.insert le
          { (tcpm.lookup le).getD default with
            listen_sockets :=
              insert h ((tcpm.lookup le).getD default).listen_sockets
            }).lookup le' = some ep ∧ TcpInEntry ep rm' h' := by
  intro h' le' rm'
  rcases eq_or_ne h' h with rfl | eh
  · rw [AList.lookup_insert]
    constructor
    · intro hx
      injection hx with hx
      injection hx with hx1 hx2
      subst hx1
      subst hx2
      refine ⟨_, AList.lookup_insert _, ?_⟩
      show h' ∈ insert h' ((tcpm.lookup le).getD default).listen_sockets
      exact Finset.mem_insert_self h' _
    · rintro ⟨ep, hep, hin⟩
      rcases eq_or_ne le' le with rfl | el
      · rw [AList.lookup_insert] at hep
        injection hep with hep
        subst hep
        cases rm' with
        | some re' =>
          exfalso
          have hin' : ((tcpm.lookup le').getD default).established_sockets.lookup re'
              = some h' := hin
          by_cases hm : le' ∈ tcpm
          · have hb := (htcp h' le' (some re')).mpr
              ⟨_, lookup_eq_getD_of_mem hm, hin'⟩
            rw [hrevn] at hb
            exact Option.noConfusion hb
          · rw [AList.lookup_eq_none.mpr hm] at hin'
            have hx' : (∅ : AList (fun _ : IpEndpoint => SocketHandle)).lookup re'
                = some h' := hin'
            rw [AList.lookup_empty] at hx'
            exact Option.noConfusion hx'
        | none => rfl
      · exfalso
        rw [AList.lookup_insert_ne el] at hep
        have hb := (htcp h' le' rm').mpr ⟨ep, hep, hin⟩
        rw [hrevn] at hb
        exact Option.noConfusion hb
  · rw [AList.lookup_insert_ne eh]
    rcases eq_or_ne le' le with rfl | el
    · constructor
      · intro hx
        obtain ⟨ep, hep, hin⟩ := (htcp h' le' rm').mp hx
        have hepc : ep = (tcpm.lookup le').getD default := by
          rw [hep]
          rfl
        refine ⟨_, AList.lookup_insert _, ?_⟩
        cases rm' with
        | some re' =>
          show ((tcpm.lookup le').getD default).established_sockets.lookup re' = some h'
          rw [← hepc]
          exact hin
        | none =>
          show h' ∈ insert h ((tcpm.lookup le').getD default).listen_sockets
          rw [← hepc]
          exact Finset.mem_insert_of_mem hin
      · rintro ⟨ep, hep, hin⟩
        rw [AList.lookup_insert] at hep
        injection hep with hep
        subst hep
        cases rm' with
        | some re' =>
          have hin' : ((tcpm.lookup le').getD default).established_sockets.lookup re'
              = some h' := hin
          by_cases hm : le' ∈ tcpm
          · exact (htcp h' le' (some re')).mpr ⟨_, lookup_eq_getD_of_mem hm, hin'⟩
          · rw [AList.lookup_eq_none.mpr hm] at hin'
            have hx' : (∅ : AList (fun _ : IpEndpoint => SocketHandle)).lookup re'
                = some h' := hin'
            rw [AList.lookup_empty] at hx'
            exact Option.noConfusion hx'
        | none =>
          have hin' : h' ∈ insert h ((tcpm.lookup le').getD default).listen_sockets := hin
          rcases Finset.mem_insert.mp hin' with rfl | hin''
          · exact absurd rfl eh
          · by_cases hm : le' ∈ tcpm
            · exact (htcp h' le' none).mpr ⟨_, lookup_eq_getD_of_mem hm, hin''⟩
            · rw [AList.lookup_eq_none.mpr hm] at hin''
              have hx' : h' ∈ (∅ : Finset SocketHandle) := hin''
              simp at hx'
    · rw [AList.lookup_insert_ne el]
      exact htcp h' le' rm'

/-- The TCP consistency iff, after unregistering a socket: the reverse entry is
erased and the bucket is shrunk to `newEp` (or garbage-collected when empty).
`hnew` characterises the shrunken bucket: it holds exactly the members of the
old bucket other than the removed registration. -/
lemma tcp_iff_remove
    {tcpm : AList (fun _ : IpListenEndpoint => TcpLocalEndpoint)}
    {revm : AList (fun _ : SocketHandle => IpListenEndpoint × Option IpEndpoint)}
    (htcp : ∀ h le rm, revm.lookup h = some (le, rm) ↔
      ∃ ep, tcpm.lookup le = some ep ∧ TcpInEntry ep rm h)
    {le : IpListenEndpoint} {rm : Option IpEndpoint} {h : SocketHandle}
    {ep : TcpLocalEndpoint} (newEp : TcpLocalEndpoint)
    (hrev : revm.lookup h = some (le, rm))
    (hep : tcpm.lookup le = some ep)
    (hnew : ∀ rm' h', TcpInEntry newEp rm' h' ↔
      TcpInEntry ep rm' h' ∧ ¬(rm' = rm ∧ h' = h)) :
    ∀ h' le' rm', (revm.erase h).lookup h' = some (le', rm') ↔
      ∃ ep', (if newEp.listen_sockets = ∅ ∧ newEp.established_sockets = ∅ then
                tcpm.erase le
              else tcpm.insert le newEp).lookup le' = some ep' ∧
        TcpInEntry ep' rm' h' := by
  intro h' le' rm'
  rcases eq_or_ne h' h with rfl | eh
  · rw [AList.lookup_erase]
    constructor
    · intro hx
      exact Option.noConfusion hx
    · rintro ⟨ep', hep', hin'⟩
      exfalso
      rcases eq_or_ne le' le with rfl | el
      · split at hep'
        · rw [AList.lookup_erase] at hep'
          exact Option.noConfusion hep'
        · rw [AList.lookup_insert] at hep'
          injection hep' with hep'
          subst hep'
          obtain ⟨hin0, hne0⟩ := (hnew rm' h').mp hin'
          have hb := (htcp h' le' rm').mpr ⟨ep, hep, hin0⟩
          rw [hrev] at hb
          injection hb with hb
          injection hb with hb1 hb2
          exact hne0 ⟨hb2.symm, rfl⟩
      · have hsame : (if newEp.listen_sockets = ∅ ∧ newEp.established_sockets = ∅ then
            tcpm.erase le else tcpm.insert le newEp).lookup le' = tcpm.lookup le' := by
          split
          · exact AList.lookup_erase_ne el
          · exact AList.lookup_insert_ne el
        rw [hsame] at hep'
        have hb := (htcp h' le' rm').mpr ⟨ep', hep', hin'⟩
        rw [hrev] at hb
        injection hb with hb
        injection hb with hb1 hb2
        exact el hb1.symm
  · rw [AList.lookup_erase_ne eh]
    rcases eq_or_ne le' le with rfl | el
    · by_cases hemp : newEp.listen_sockets = ∅ ∧ newEp.established_sockets = ∅
      · rw [if_pos hemp]
        constructor
        · intro hx
          exfalso
          obtain ⟨ep0, hep0, hin0⟩ := (htcp h' le' rm').mp hx
          rw [hep] at hep0
          injection hep0 with hep0
          subst hep0
          have hinew := (hnew rm' h').mpr ⟨hin0, fun hc => eh hc.2⟩
          cases rm' with
          | some re' =>
            have hx' : newEp.established_sockets.lookup re' = some h' := hinew
            rw [hemp.2, AList.lookup_empty] at hx'
            exact Option.noConfusion hx'
          | none =>
            have hx' : h' ∈ newEp.listen_sockets := hinew
            rw [hemp.1] at hx'
            simp at hx'
        · rintro ⟨ep', hep', _⟩
          rw [AList.lookup_erase] at hep'
          exact Option.noConfusion hep'
      · rw [if_neg hemp]
        constructor
        · intro hx
          obtain ⟨ep0, hep0, hin0⟩ := (htcp h' le' rm').mp hx
          rw [hep] at hep0
          injection hep0 with hep0
          subst hep0
          exact ⟨newEp, AList.lookup_insert _,
            (hnew rm' h').mpr ⟨hin0, fun hc => eh hc.2⟩⟩
        · rintro ⟨ep', hep', hin'⟩
          rw [AList.lookup_insert] at hep'
          injection hep' with hep'
          subst hep'
          obtain ⟨hin0, _⟩ := (hnew rm' h').mp hin'
          exact (htcp h' le' rm').mpr ⟨ep, hep, hin0⟩
    · have hsame : (if newEp.listen_sockets = ∅ ∧ newEp.established_sockets = ∅ then
          tcpm.erase le else tcpm.insert le newEp).lookup le' = tcpm.lookup le' := by
        split
        · exact AList.lookup_erase_ne el
        · exact AList.lookup_insert_ne el
      rw [hsame]
      exact htcp h' le' rm'

/-- A bucket inserted with at least one member keeps the TCP sub-table free of
empty buckets. -/
lemma noempty_insert_entry
    {tcpm : AList (fun _ : IpListenEndpoint => TcpLocalEndpoint)}
    (hne : ∀ le ep, tcpm.lookup le = some ep →
      ep.listen_sockets ≠ ∅ ∨ ep.established_sockets ≠ ∅)
    {le : IpListenEndpoint} {newEp : TcpLocalEndpoint}
    (hx : newEp.listen_sockets ≠ ∅ ∨ newEp.established_sockets ≠ ∅) :
    ∀ le' ep', (tcpm.insert le newEp).lookup le' = some ep' →
      ep'.listen_sockets ≠ ∅ ∨ ep'.established_sockets ≠ ∅ := by
  intro le' ep' hep'
  rcases eq_or_ne le' le with rfl | el
  · rw [AList.lookup_insert] at hep'
    injection hep' with hep'
    subst hep'
    exact hx
  · rw [AList.lookup_insert_ne el] at hep'
    exact hne le' ep' hep'

/-- The erase-or-shrink write-back at the end of `remove_tcp_socket` keeps the
TCP sub-table free of empty buckets. -/
lemma noempty_remove_entry
    {tcpm : AList (fun _ : IpListenEndpoint => TcpLocalEndpoint)}
    (hne : ∀ le ep, tcpm.lookup le = some ep →
      ep.listen_sockets ≠ ∅ ∨ ep.established_sockets ≠ ∅)
    (le : IpListenEndpoint) (newEp : TcpLocalEndpoint) :
    ∀ le' ep', (if newEp.listen_sockets = ∅ ∧ newEp.established_sockets = ∅ then
        tcpm.erase le
      else tcpm.insert le newEp).lookup le' = some ep' →
      ep'.listen_sockets ≠ ∅ ∨ ep'.established_sockets ≠ ∅ := by
  intro le' ep' hep'
  split at hep'
  case isTrue hemp =>
    rcases eq_or_ne le' le with rfl | el
    · rw [AList.lookup_erase] at hep'
      exact Option.noConfusion hep'
    · rw [AList.lookup_erase_ne el] at hep'
      exact hne le' ep' hep'
  case isFalse hnemp =>
    rcases eq_or_ne le' le with rfl | el
    · rw [AList.lookup_insert] at hep'
      injection hep' with hep'
      subst hep'
      exact not_and_or.mp hnemp
    · rw [AList.lookup_insert_ne el] at hep'
      exact hne le' ep' hep'

/-- `add_tcp_socket` preserves the invariant. -/
lemma invariant_add_tcp {t : DispatchTable} (s : TcpSocket) (h : SocketHandle)
    (inv : Invariant t) : Invariant (t.add_tcp_socket s h).1 := by
  obtain ⟨⟨hraw, hudp, htcp⟩, hne, hua⟩ := inv
  unfold DispatchTable.add_tcp_socket
  cases hle : s.effective_listen with
  | none => exact ⟨⟨hraw, hudp, htcp⟩, hne, hua⟩
  | some le =>
    dsimp only
    by_cases hrev : h ∈ t.rev_tcp
    · rw [if_pos hrev]
      exact ⟨⟨hraw, hudp, htcp⟩, hne, hua⟩
    · rw [if_neg hrev]
      have hrevn : t.rev_tcp.lookup h = none := AList.lookup_eq_none.mpr hrev
      cases hre : s.remote_endpoint with
      | some re =>
        dsimp only
        by_cases hest : re ∈ ((t.tcp.lookup le).getD default).established_sockets
        · rw [if_pos hest]
          have hmem : le ∈ t.tcp := by
            by_contra hni
            rw [AList.lookup_eq_none.mpr hni] at hest
            have hx : re ∈ (default : TcpLocalEndpoint).established_sockets := hest
            exact AList.not_mem_empty re hx
          rw [if_pos hmem]
          exact ⟨⟨hraw, hudp, htcp⟩, hne, hua⟩
        · rw [if_neg hest]
          have hestn : ((t.tcp.lookup le).getD default).established_sockets.lookup re
              = none := AList.lookup_eq_none.mpr hest
          exact ⟨⟨hraw, hudp, tcp_iff_insert_est htcp hrevn hestn⟩,
            noempty_insert_entry hne
              (Or.inr (alist_lookup_ne_empty (AList.lookup_insert _))), hua⟩
      | none =>
        dsimp only
        exact ⟨⟨hraw, hudp, tcp_iff_insert_listen htcp hrevn⟩,
          noempty_insert_entry hne
            (Or.inl (Finset.ne_empty_of_mem (Finset.mem_insert_self h _))), hua⟩

/-- `remove_tcp_socket` preserves the invariant. -/
lemma invariant_remove_tcp {t : DispatchTable} (h : SocketHandle)
    (inv : Invariant t) : Invariant (t.remove_tcp_socket h).1 := by
  obtain ⟨⟨hraw, hudp, htcp⟩, hne, hua⟩ := inv
  unfold DispatchTable.remove_tcp_socket
  cases hrev : t.rev_tcp.lookup h with
  | none => exact ⟨⟨hraw, hudp, htcp⟩, hne, hua⟩
  | some pr =>
    obtain ⟨le, rm⟩ := pr
    dsimp only
    cases hep : t.tcp.lookup le with
    | none => exact ⟨⟨hraw, hudp, htcp⟩, hne, hua⟩
    | some ep =>
      dsimp only
      cases rm with
      | some re =>
        dsimp only
        by_cases hmem : re ∈ ep.established_sockets
        · rw [if_pos hmem]
          unfold DispatchTable.finish_remove_tcp
          dsimp only
          have hlook : ep.established_sockets.lookup re = some h := by
            obtain ⟨ep0, hep0, hin0⟩ := (htcp h le (some re)).mp hrev
            rw [hep] at hep0
            injection hep0 with hep0
            subst hep0
            exact hin0
          refine ⟨⟨hraw, hudp, tcp_iff_remove htcp
              ⟨ep.listen_sockets, ep.established_sockets.erase re⟩ hrev hep ?_⟩,
            noempty_remove_entry hne le
              ⟨ep.listen_sockets, ep.established_sockets.erase re⟩, hua⟩
          intro rm' h'
          cases rm' with
          | some re' =>
            constructor
            · intro hx
              have hx' : (ep.established_sockets.erase re).lookup re' = some h' := hx
              rcases eq_or_ne re' re with rfl | er
              · rw [AList.lookup_erase] at hx'
                exact absurd hx' (fun hc => Option.noConfusion hc)
              · rw [AList.lookup_erase_ne er] at hx'
                exact ⟨hx', fun hc => er (Option.some.inj hc.1)⟩
            · rintro ⟨hx, hnc⟩
              have hx' : ep.established_sockets.lookup re' = some h' := hx
              have er : re' ≠ re := by
                intro hre
                subst hre
                rw [hlook] at hx'
                injection hx' with hx'
                exact hnc ⟨rfl, hx'.symm⟩
              show (ep.established_sockets.erase re).lookup re' = some h'
              rw [AList.lookup_erase_ne er]
              exact hx'
          | none =>
            constructor
            · intro hx
              exact ⟨hx, fun hc => Option.noConfusion hc.1⟩
            · rintro ⟨hx, _⟩
              exact hx
        · rw [if_neg hmem]
          exact ⟨⟨hraw, hudp, htcp⟩, hne, hua⟩
      | none =>
        dsimp only
        by_cases hmem : h ∈ ep.listen_sockets
        · rw [if_pos hmem]
          unfold DispatchTable.finish_remove_tcp
          dsimp only
          refine ⟨⟨hraw, hudp, tcp_iff_remove htcp
              ⟨ep.listen_sockets.erase h, ep.established_sockets⟩ hrev hep ?_⟩,
            noempty_remove_entry hne le
              ⟨ep.listen_sockets.erase h, ep.established_sockets⟩, hua⟩
          intro rm' h'
          cases rm' with
          | some re' =>
            constructor
            · intro hx
              exact ⟨hx, fun hc => Option.noConfusion hc.1⟩
            · rintro ⟨hx, _⟩
              exact hx
          | none =>
            constructor
            · intro hx
              have hx' : h' ∈ ep.listen_sockets.erase h := hx
              obtain ⟨hne', hmem'⟩ := Finset.mem_erase.mp hx'
              exact ⟨hmem', fun hc => hne' hc.2⟩
            · rintro ⟨hx, hnc⟩
              show h' ∈ ep.listen_sockets.erase h
              exact Finset.mem_erase.mpr ⟨fun hc => hnc ⟨rfl, hc⟩, hx⟩
        · rw [if_neg hmem]
          exact ⟨⟨hraw, hudp, htcp⟩, hne, hua⟩

/-- Every successful step preserves the invariant. -/
lemma invariant_step {t t' : DispatchTable} (inv : Invariant t)
    (st : Step t t') : Invariant t' := by
  cases st with
  | add_raw s h _ => exact invariant_add_raw s h inv
  | add_udp s h _ => exact invariant_add_udp s h inv
  | add_tcp s h _ => exact invariant_add_tcp s h inv
  | remove_raw h _ => exact invariant_remove_raw h inv
  | remove_udp h _ => exact invariant_remove_udp h inv
  | remove_tcp h _ => exact invariant_remove_tcp h inv

/-- Every reachable table satisfies the invariant. -/
lemma invariant_of_reachable {t : DispatchTable} (hr : Reachable t) :
    Invariant t := by
  induction hr with
  | empty => exact invariant_empty
  | step _ st ih => exact invariant_step ih st

/-- The UDP example table is reachable. -/
lemma udpExampleTable_reachable : Reachable udpExampleTable :=
  Reachable.step
    (Reachable.step Reachable.empty
      (Step.add_udp DispatchTable.empty udpSocketA 1 (by decide)))
    (Step.add_udp (DispatchTable.empty.add_udp_socket udpSocketA 1).1 udpSocketB 2
      (by decide))

/-- The TCP example table is reachable. -/
lemma tcpExampleTable_reachable : Reachable tcpExampleTable :=
  Reachable.step
    (Reachable.step Reachable.empty
      (Step.add_tcp DispatchTable.empty tcpListenerSocket 1 (by decide)))
    (Step.add_tcp (DispatchTable.empty.add_tcp_socket tcpListenerSocket 1).1
      tcpEstablishedSocket 2 (by decide))

/-- The single-listener TCP table is reachable. -/
lemma tcpSingleTable_reachable : Reachable tcpSingleTable :=
  Reachable.step Reachable.empty
    (Step.add_tcp DispatchTable.empty tcpListenerSocket 1 (by decide))

/-- C1: at every table reachable from the empty table by successful
add/remove calls, each reverse entry matches exactly one forward slot holding
exactly that handle (mutual forward/reverse consistency), and a handle never
occupies two forward slots in the same sub-table. -/
theorem c1_forward_reverse_bijection (t : DispatchTable) (hr : Reachable t) :
    Consistent t ∧
    (∀ k k' h, t.raw.lookup k = some h → t.raw.lookup k' = some h → k = k') ∧
    (∀ k k' h, t.udp.lookup k = some h → t.udp.lookup k' = some h → k = k') ∧
    (∀ le le' rm rm' ep ep' h, t.tcp.lookup le = some ep →
      t.tcp.lookup le' = some ep' → TcpInEntry ep rm h → TcpInEntry ep' rm' h →
      le = le' ∧ rm = rm') := by
  obtain ⟨⟨hraw, hudp, htcp⟩, hne, hua⟩ := invariant_of_reachable hr
  refine ⟨⟨hraw, hudp, htcp⟩, ?_, ?_, ?_⟩
  · intro k k' h hk hk'
    have h1 := (hraw h k).mpr hk
    have h2 := (hraw h k').mpr hk'
    rw [h1] at h2
    injection h2
  · intro k k' h hk hk'
    have h1 := (hudp h k).mpr hk
    have h2 := (hudp h k').mpr hk'
    rw [h1] at h2
    injection h2
  · intro le le' rm rm' ep ep' h hep hep' hin hin'
    have h1 := (htcp h le rm).mpr ⟨ep, hep, hin⟩
    have h2 := (htcp h le' rm').mpr ⟨ep', hep', hin'⟩
    rw [h1] at h2
    injection h2 with h2
    injection h2 with h2a h2b
    exact ⟨h2a, h2b⟩

/-- Witness for C1 at a concrete two-socket reachable table. -/
theorem c1_forward_reverse_bijection_witness :
    Reachable udpExampleTable ∧ Consistent udpExampleTable :=
  ⟨udpExampleTable_reachable,
    (c1_forward_reverse_bijection udpExampleTable udpExampleTable_reachable).1⟩

/-- A failed `add_raw_socket` call returns the table untouched. -/
lemma add_raw_error_unchanged (t : DispatchTable) (s : RawSocket)
    (h : SocketHandle) (e : AddError) (he : (t.add_raw_socket s h).2 = some e) :
    (t.add_raw_socket s h).1 = t := by
  unfold DispatchTable.add_raw_socket at he ⊢
  by_cases hc : (s.ip_version, s.ip_protocol) ∉ t.raw ∧ h ∉ t.rev_raw
  · rw [if_pos hc] at he
    exact Option.noConfusion he
  · rw [if_neg hc]

/-- A failed `add_udp_socket` call returns the table untouched. -/
lemma add_udp_error_unchanged (t : DispatchTable) (s : UdpSocket)
    (h : SocketHandle) (e : AddError) (he : (t.add_udp_socket s h).2 = some e) :
    (t.add_udp_socket s h).1 = t := by
  unfold DispatchTable.add_udp_socket at he ⊢
  by_cases hskip : s.endpoint.is_specified = false ∧ s.endpoint.port = 0
  · rw [if_pos hskip] at he
    exact Option.noConfusion he
  · rw [if_neg hskip] at he ⊢
    by_cases hc : s.endpoint ∉ t.udp ∧ h ∉ t.rev_udp
    · rw [if_pos hc] at he
      exact Option.noConfusion he
    · rw [if_neg hc]

/-- A failed `add_tcp_socket` call returns the table untouched: in particular
the `or_insert_with` on the error path never leaves a fresh empty bucket
behind, because the occupied-slot error implies the bucket already existed. -/
lemma add_tcp_error_unchanged (t : DispatchTable) (s : TcpSocket)
    (h : SocketHandle) (e : AddError) (he : (t.add_tcp_socket s h).2 = some e) :
    (t.add_tcp_socket s h).1 = t := by
  unfold DispatchTable.add_tcp_socket at he ⊢
  cases hle : s.effective_listen with
  | none => rfl
  | some le =>
    rw [hle] at he
    dsimp only at he ⊢
    by_cases hrev : h ∈ t.rev_tcp
    · rw [if_pos hrev]
    · rw [if_neg hrev] at he ⊢
      cases hre : s.remote_endpoint with
      | none =>
        rw [hre] at he
        dsimp only at he
        exact Option.noConfusion he
      | some re =>
        rw [hre] at he
        dsimp only at he ⊢
        by_cases hest : re ∈ ((t.tcp.lookup le).getD default).established_sockets
        · rw [if_pos hest]
          have hmem : le ∈ t.tcp := by
            by_contra hni
            rw [AList.lookup_eq_none.mpr hni] at hest
            exact AList.not_mem_empty re hest
          rw [if_pos hmem]
        · rw [if_neg hest] at he
          dsimp only at he
          exact Option.noConfusion he

/-- C2: an add call that returns `AlreadyInUse` leaves the table exactly as it
was: neither the forward nor the reverse map of any sub-table is mutated. -/
theorem c2_add_error_leaves_table_unchanged (t : DispatchTable) :
    (∀ (s : RawSocket) (h : SocketHandle) (e : AddError),
      (t.add_raw_socket s h).2 = some e → (t.add_raw_socket s h).1 = t) ∧
    (∀ (s : UdpSocket) (h : SocketHandle) (e : AddError),
      (t.add_udp_socket s h).2 = some e → (t.add_udp_socket s h).1 = t) ∧
    (∀ (s : TcpSocket) (h : SocketHandle) (e : AddError),
      (t.add_tcp_socket s h).2 = some e → (t.add_tcp_socket s h).1 = t) :=
  ⟨fun s h e he => add_raw_error_unchanged t s h e he,
   fun s h e he => add_udp_error_unchanged t s h e he,
   fun s h e he => add_tcp_error_unchanged t s h e he⟩

/-- Witness for C2: adding a second wildcard socket at the occupied port-80
key fails and leaves the concrete example table unchanged. -/
theorem c2_add_error_leaves_table_unchanged_witness :
    (udpExampleTable.add_udp_socket udpSocketB 9).2 = some .AlreadyInUse ∧
    (udpExampleTable.add_udp_socket udpSocketB 9).1 = udpExampleTable :=
  ⟨by decide,
    (c2_add_error_leaves_table_unchanged udpExampleTable).2.1 udpSocketB 9
      .AlreadyInUse (by decide)⟩


/-- C3: no reachable table holds an empty TCP bucket; `add_tcp_socket` leaves
no empty bucket behind on an error path; and after removing the last handle at
a TCP local endpoint the bucket is gone, so any packet addressed there whose
other candidate keys also miss resolves to `None`. -/
theorem c3_empty_entry_gc (t : DispatchTable) (hr : Reachable t) :
    NoEmptyEntry t ∧
    (∀ (s : TcpSocket) (h : SocketHandle) (e : AddError),
      (t.add_tcp_socket s h).2 = some e → (t.add_tcp_socket s h).1 = t) ∧
    (∀ (h : SocketHandle) (le : IpListenEndpoint) (rm : Option IpEndpoint)
        (ep : TcpLocalEndpoint),
      t.rev_tcp.lookup h = some (le, rm) → t.tcp.lookup le = some ep →
      LastOccupant ep rm h →
      (t.remove_tcp_socket h).2 = none ∧
      (t.remove_tcp_socket h).1.tcp.lookup le = none ∧
      (∀ (ip : IpRepr) (tr : TcpRepr),
        (IpEndpoint.toListen ⟨ip.dst_addr, tr.dst_port⟩ = le ∨
          (t.remove_tcp_socket h).1.tcp.lookup
            (IpEndpoint.toListen ⟨ip.dst_addr, tr.dst_port⟩) = none) →
        (IpListenEndpoint.ofPort tr.dst_port = le ∨
          (t.remove_tcp_socket h).1.tcp.lookup
            (IpListenEndpoint.ofPort tr.dst_port) = none) →
        (IpEndpoint.toListen
            ⟨IpAddress.unspecifiedOfVersion ip.dst_addr.version, tr.dst_port⟩ = le ∨
          (t.remove_tcp_socket h).1.tcp.lookup (IpEndpoint.toListen
            ⟨IpAddress.unspecifiedOfVersion ip.dst_addr.version, tr.dst_port⟩) = none) →
        (t.remove_tcp_socket h).1.get_tcp_socket ip tr = none)) := by
  refine ⟨(invariant_of_reachable hr).2.1,
    fun s h e he => add_tcp_error_unchanged t s h e he, ?_⟩
  intro h le rm ep hrev hep hlast
  have hres : t.remove_tcp_socket h =
      ({ t with tcp := t.tcp.erase le, rev_tcp := t.rev_tcp.erase h }, none) := by
    unfold DispatchTable.remove_tcp_socket DispatchTable.finish_remove_tcp
    rw [hrev]
    dsimp only
    rw [hep]
    dsimp only
    cases rm with
    | some re =>
      obtain ⟨hm, hl1, hl2⟩ := hlast
      dsimp only
      rw [if_pos hm, if_pos ⟨hl1, hl2⟩]
    | none =>
      obtain ⟨hm, hl1, hl2⟩ := hlast
      dsimp only
      rw [if_pos hm, if_pos ⟨hl2, hl1⟩]
  have hgone : (t.remove_tcp_socket h).1.tcp.lookup le = none := by
    rw [hres]
    exact AList.lookup_erase le t.tcp
  refine ⟨by rw [hres], hgone, ?_⟩
  intro ip tr h1 h2 h3
  have hk : ∀ k : IpListenEndpoint,
      (k = le ∨ (t.remove_tcp_socket h).1.tcp.lookup k = none) →
      (t.remove_tcp_socket h).1.tcp.lookup k = none := by
    rintro k (rfl | hkn)
    · exact hgone
    · exact hkn
  unfold DispatchTable.get_tcp_socket DispatchTable.tcp_entry_lookup
  rw [hk _ h1, hk _ h2, hk _ h3]
  rfl

/-- Witness for C3: removing the sole listener at (*, 80) garbage-collects the
bucket and a packet to port 80 no longer resolves. -/
theorem c3_empty_entry_gc_witness :
    Reachable tcpSingleTable ∧
    tcpSingleTable.rev_tcp.lookup 1 = some (⟨none, 80⟩, none) ∧
    (tcpSingleTable.remove_tcp_socket 1).1.tcp.lookup ⟨none, 80⟩ = none ∧
    (tcpSingleTable.remove_tcp_socket 1).1.get_tcp_socket
      ⟨.ipv4 5, .ipv4 16909060⟩ ⟨7777, 80⟩ = none := by
  have hc := (c3_empty_entry_gc tcpSingleTable tcpSingleTable_reachable).2.2 1
    ⟨none, 80⟩ none ⟨{1}, ∅⟩ (by decide) rfl
    ⟨by decide, rfl, rfl⟩
  exact ⟨tcpSingleTable_reachable, by decide, hc.2.1,
    hc.2.2 ⟨.ipv4 5, .ipv4 16909060⟩ ⟨7777, 80⟩ (by decide) (Or.inl (by decide))
      (by decide)⟩


/-- A handle produced by `next_listen` belongs to the listening set. -/
lemma next_listen_mem {ep : TcpLocalEndpoint} {h : SocketHandle}
    (hx : ep.next_listen = some h) : h ∈ ep.listen_sockets := by
  unfold TcpLocalEndpoint.next_listen at hx
  split at hx
  · injection hx with hx
    subst hx
    exact Finset.min'_mem _ _
  · exact Option.noConfusion hx

/-- An empty listening set makes `next_listen` return `none`. -/
lemma next_listen_empty {ep : TcpLocalEndpoint}
    (hx : ep.listen_sockets = ∅) : ep.next_listen = none := by
  unfold TcpLocalEndpoint.next_listen
  rw [dif_neg]
  rw [hx]
  exact Finset.not_nonempty_empty

/-- C4: `get_udp_socket` tries (destination address, port), then the wildcard
key, then the version-specific unspecified key, returning the first hit; on
the example table the packet to (1.2.3.4, 80) hits socket 1 and the packet to
(5.6.7.8, 80) falls back to the wildcard socket 2. -/
theorem c4_udp_lookup_precedence :
    (∀ (t : DispatchTable) (ip : IpRepr) (u : UdpRepr) (h : SocketHandle),
      t.udp.lookup (IpEndpoint.toListen ⟨ip.dst_addr, u.dst_port⟩) = some h →
      t.get_udp_socket ip u = some h) ∧
    (∀ (t : DispatchTable) (ip : IpRepr) (u : UdpRepr) (h : SocketHandle),
      t.udp.lookup (IpEndpoint.toListen ⟨ip.dst_addr, u.dst_port⟩) = none →
      t.udp.lookup (IpListenEndpoint.ofPort u.dst_port) = some h →
      t.get_udp_socket ip u = some h) ∧
    (∀ (t : DispatchTable) (ip : IpRepr) (u : UdpRepr),
      t.udp.lookup (IpEndpoint.toListen ⟨ip.dst_addr, u.dst_port⟩) = none →
      t.udp.lookup (IpListenEndpoint.ofPort u.dst_port) = none →
      t.get_udp_socket ip u = t.udp.lookup (IpEndpoint.toListen
        ⟨IpAddress.unspecifiedOfVersion ip.dst_addr.version, u.dst_port⟩)) ∧
    ((DispatchTable.empty.add_udp_socket udpSocketA 1).2 = none ∧
      ((DispatchTable.empty.add_udp_socket udpSocketA 1).1.add_udp_socket
        udpSocketB 2).2 = none ∧
      udpExampleTable.get_udp_socket ⟨.ipv4 5, .ipv4 16909060⟩ ⟨1000, 80⟩ = some 1 ∧
      udpExampleTable.get_udp_socket ⟨.ipv4 5, .ipv4 84281096⟩ ⟨1000, 80⟩ = some 2) := by
  refine ⟨?_, ?_, ?_, by decide, by decide, by decide, by decide⟩
  · intro t ip u h h1
    unfold DispatchTable.get_udp_socket
    rw [h1]
    rfl
  · intro t ip u h h1 h2
    unfold DispatchTable.get_udp_socket
    rw [h1, h2]
    rfl
  · intro t ip u h1 h2
    unfold DispatchTable.get_udp_socket
    rw [h1, h2]
    rfl

/-- Witness for C4: the first-step key of the example packet is occupied by
socket 1 and the lookup resolves to it. -/
theorem c4_udp_lookup_precedence_witness :
    udpExampleTable.udp.lookup
      (IpEndpoint.toListen ⟨IpAddress.ipv4 16909060, 80⟩) = some 1 ∧
    udpExampleTable.get_udp_socket ⟨.ipv4 5, .ipv4 16909060⟩ ⟨1000, 80⟩ = some 1 :=
  ⟨by decide, c4_udp_lookup_precedence.1 udpExampleTable
    ⟨.ipv4 5, .ipv4 16909060⟩ ⟨1000, 80⟩ 1 (by decide)⟩

/-- C5: `get_tcp_socket` resolves the local-endpoint bucket with the same
three-step fallback as UDP, then prefers the exact established match on the
packet source, then any listening handle, and returns `none` (no panic) when
the bucket yields neither; on the example table the packet from (9.9.9.9,
1234) hits the established socket 2 and any other source hits listener 1. -/
theorem c5_tcp_established_over_listen :
    (∀ (t : DispatchTable) (dst : IpAddress) (p : Nat) (ep : TcpLocalEndpoint),
      t.tcp.lookup (IpEndpoint.toListen ⟨dst, p⟩) = some ep →
      t.tcp_entry_lookup dst p = some ep) ∧
    (∀ (t : DispatchTable) (dst : IpAddress) (p : Nat) (ep : TcpLocalEndpoint),
      t.tcp.lookup (IpEndpoint.toListen ⟨dst, p⟩) = none →
      t.tcp.lookup (IpListenEndpoint.ofPort p) = some ep →
      t.tcp_entry_lookup dst p = some ep) ∧
    (∀ (t : DispatchTable) (dst : IpAddress) (p : Nat),
      t.tcp.lookup (IpEndpoint.toListen ⟨dst, p⟩) = none →
      t.tcp.lookup (IpListenEndpoint.ofPort p) = none →
      t.tcp_entry_lookup dst p = t.tcp.lookup (IpEndpoint.toListen
        ⟨IpAddress.unspecifiedOfVersion dst.version, p⟩)) ∧
    (∀ (t : DispatchTable) (ip : IpRepr) (tr : TcpRepr) (ep : TcpLocalEndpoint)
        (h : SocketHandle),
      t.tcp_entry_lookup ip.dst_addr tr.dst_port = some ep →
      ep.established_sockets.lookup ⟨ip.src_addr, tr.src_port⟩ = some h →
      t.get_tcp_socket ip tr = some h) ∧
    (∀ (t : DispatchTable) (ip : IpRepr) (tr : TcpRepr) (ep : TcpLocalEndpoint)
        (h : SocketHandle),
      t.tcp_entry_lookup ip.dst_addr tr.dst_port = some ep →
      ep.established_sockets.lookup ⟨ip.src_addr, tr.src_port⟩ = none →
      ep.next_listen = some h →
      t.get_tcp_socket ip tr = some h ∧ h ∈ ep.listen_sockets) ∧
    (∀ (t : DispatchTable) (ip : IpRepr) (tr : TcpRepr),
      t.tcp_entry_lookup ip.dst_addr tr.dst_port = none →
      t.get_tcp_socket ip tr = none) ∧
    (∀ (t : DispatchTable) (ip : IpRepr) (tr : TcpRepr) (ep : TcpLocalEndpoint),
      t.tcp_entry_lookup ip.dst_addr tr.dst_port = some ep →
      ep.established_sockets.lookup ⟨ip.src_addr, tr.src_port⟩ = none →
      ep.listen_sockets = ∅ →
      t.get_tcp_socket ip tr = none) ∧
    (tcpExampleTable.get_tcp_socket ⟨.ipv4 151587081, .ipv4 7⟩ ⟨1234, 80⟩ = some 2 ∧
      tcpExampleTable.get_tcp_socket ⟨.ipv4 134744072, .ipv4 7⟩ ⟨5555, 80⟩ = some 1) := by
  refine ⟨?_, ?_, ?_, ?_, ?_, ?_, ?_, by decide, by decide⟩
  · intro t dst p ep h1
    unfold DispatchTable.tcp_entry_lookup
    rw [h1]
    rfl
  · intro t dst p ep h1 h2
    unfold DispatchTable.tcp_entry_lookup
    rw [h1, h2]
    rfl
  · intro t dst p h1 h2
    unfold DispatchTable.tcp_entry_lookup
    rw [h1, h2]
    rfl
  · intro t ip tr ep h hentry hest
    unfold DispatchTable.get_tcp_socket
    rw [hentry]
    dsimp only
    rw [hest]
    rfl
  · intro t ip tr ep h hentry hest hnext
    refine ⟨?_, next_listen_mem hnext⟩
    unfold DispatchTable.get_tcp_socket
    rw [hentry]
    dsimp only
    rw [hest]
    exact hnext
  · intro t ip tr hentry
    unfold DispatchTable.get_tcp_socket
    rw [hentry]
  · intro t ip tr ep hentry hest hemp
    unfold DispatchTable.get_tcp_socket
    rw [hentry]
    dsimp only
    rw [hest]
    exact next_listen_empty hemp

/-- Witness for C5: on the example table the bucket at the wildcard key holds
listener 1 and the established entry for (9.9.9.9, 1234), and the established
packet resolves to socket 2. -/
theorem c5_tcp_established_over_listen_witness :
    tcpExampleTable.tcp_entry_lookup (.ipv4 151587081) 80 =
      some ⟨{1}, (∅ : AList (fun _ : IpEndpoint => SocketHandle)).insert
        ⟨.ipv4 151587081, 1234⟩ 2⟩ ∧
    tcpExampleTable.get_tcp_socket ⟨.ipv4 151587081, .ipv4 7⟩ ⟨1234, 80⟩ = some 2 :=
  ⟨by decide, c5_tcp_established_over_listen.2.2.2.1 tcpExampleTable
    ⟨.ipv4 151587081, .ipv4 7⟩ ⟨1234, 80⟩
    ⟨{1}, (∅ : AList (fun _ : IpEndpoint => SocketHandle)).insert
      ⟨.ipv4 151587081, 1234⟩ 2⟩ 2 (by decide) (by decide)⟩


/-- The skip guard of `add_udp_socket` fires exactly for the endpoint with an
unspecified address and port 0. -/
lemma udp_skip_iff (e : IpListenEndpoint) :
    (e.is_specified = false ∧ e.port = 0) ↔ (e.addr = none ∧ e.port = 0) := by
  unfold IpListenEndpoint.is_specified
  cases ha : e.addr with
  | none => simp
  | some a => simp

/-- C6: releasing a UDP tracker whose endpoint changed removes the old entry
exactly when the snapshot endpoint was specified and then always calls
`add_udp_socket`, which succeeds without indexing for the unaddressable
endpoint (wildcard address, port 0) and otherwise indexes the socket at its
current endpoint. -/
theorem c6_udp_tracker_reconcile (old : IpListenEndpoint) (s : UdpSocket)
    (t : DispatchTable) (h : SocketHandle) (hne : old ≠ s.endpoint) :
    (old.is_specified = true →
      udp_on_drop old s t h = ((t.remove_udp_socket h).1.add_udp_socket s h).1) ∧
    (old.is_specified = false →
      udp_on_drop old s t h = (t.add_udp_socket s h).1) ∧
    (s.endpoint.addr = none ∧ s.endpoint.port = 0 →
      ∀ t' : DispatchTable, t'.add_udp_socket s h = (t', none)) ∧
    (¬(s.endpoint.addr = none ∧ s.endpoint.port = 0) →
      ∀ t' : DispatchTable, s.endpoint ∉ t'.udp → h ∉ t'.rev_udp →
        (t'.add_udp_socket s h).2 = none ∧
        (t'.add_udp_socket s h).1.udp.lookup s.endpoint = some h ∧
        (t'.add_udp_socket s h).1.rev_udp.lookup h = some s.endpoint) := by
  refine ⟨?_, ?_, ?_, ?_⟩
  · intro hsp
    unfold udp_on_drop
    rw [if_pos hne, if_pos hsp]
  · intro hsp
    unfold udp_on_drop
    rw [if_pos hne, if_neg (by rw [hsp]; exact Bool.false_ne_true)]
  · rintro ⟨h1, h2⟩ t'
    unfold DispatchTable.add_udp_socket
    rw [if_pos ((udp_skip_iff s.endpoint).mpr ⟨h1, h2⟩)]
  · intro hn t' hu hr
    unfold DispatchTable.add_udp_socket
    rw [if_neg (fun hc => hn ((udp_skip_iff s.endpoint).mp hc)),
      if_pos ⟨hu, hr⟩]
    exact ⟨rfl, AList.lookup_insert _, AList.lookup_insert _⟩

/-- Witness for C6: rebinding socket 1 of the example table from the
specified key (1.2.3.4, 80) to the wildcard port 81 removes then re-adds. -/
theorem c6_udp_tracker_reconcile_witness :
    (⟨some (.ipv4 16909060), 80⟩ : IpListenEndpoint).is_specified = true ∧
    udp_on_drop ⟨some (.ipv4 16909060), 80⟩ ⟨⟨none, 81⟩, false, false⟩
        udpExampleTable 1 =
      ((udpExampleTable.remove_udp_socket 1).1.add_udp_socket
        ⟨⟨none, 81⟩, false, false⟩ 1).1 :=
  ⟨by decide, (c6_udp_tracker_reconcile ⟨some (.ipv4 16909060), 80⟩
    ⟨⟨none, 81⟩, false, false⟩ udpExampleTable 1 (by decide)).1 (by decide)⟩

/-- C7: releasing a TCP tracker over a Listen-to-Established transition
removes the old listening registration and registers the handle in the
established map of its effective local endpoint, keyed by the new remote
endpoint. -/
theorem c7_tcp_listen_to_established (s : TcpSocket) (t : DispatchTable)
    (h : SocketHandle) (le le' : IpListenEndpoint) (re : IpEndpoint)
    (ep : TcpLocalEndpoint)
    (hst : s.state = .Established)
    (hre : s.remote_endpoint = some re)
    (heff : s.effective_listen = some le')
    (hrev : t.rev_tcp.lookup h = some (le, none))
    (hep : t.tcp.lookup le = some ep)
    (hmem : h ∈ ep.listen_sockets)
    (hest : (((t.remove_tcp_socket h).1.tcp.lookup le').getD
        default).established_sockets.lookup re = none) :
    (tcp_on_drop .Listen s t h).rev_tcp.lookup h = some (le', some re) ∧
    ((tcp_on_drop .Listen s t h).tcp.lookup le').map
      (fun e => e.established_sockets.lookup re) = some (some h) ∧
    (∀ ep', (tcp_on_drop .Listen s t h).tcp.lookup le = some ep' →
      h ∉ ep'.listen_sockets) := by
  have hrem : (t.remove_tcp_socket h).1 = { t with
      tcp := if ep.listen_sockets.erase h = ∅ ∧ ep.established_sockets = ∅ then
          t.tcp.erase le
        else t.tcp.insert le ⟨ep.listen_sockets.erase h, ep.established_sockets⟩
      rev_tcp := t.rev_tcp.erase h } := by
    unfold DispatchTable.remove_tcp_socket DispatchTable.finish_remove_tcp
    rw [hrev]
    dsimp only
    rw [hep]
    dsimp only
    rw [if_pos hmem]
  have h1 : (t.remove_tcp_socket h).1.rev_tcp.lookup h = none := by
    rw [hrem]
    exact AList.lookup_erase _ _
  have hadd : ((t.remove_tcp_socket h).1.add_tcp_socket s h).1 =
      { (t.remove_tcp_socket h).1 with
        tcp := (t.remove_tcp_socket h).1.tcp.insert le'
          { ((t.remove_tcp_socket h).1.tcp.lookup le').getD default with
            established_sockets :=
              (((t.remove_tcp_socket h).1.tcp.lookup le').getD
                default).established_sockets.insert re h }
        rev_tcp := (t.remove_tcp_socket h).1.rev_tcp.insert h (le', some re) } := by
    unfold DispatchTable.add_tcp_socket
    rw [heff]
    dsimp only
    rw [if_neg (fun hx => (AList.lookup_eq_none.mp h1) hx), hre]
    dsimp only
    rw [if_neg (fun hx => (AList.lookup_eq_none.mp hest) hx)]
  have hdrop : tcp_on_drop .Listen s t h =
      ((t.remove_tcp_socket h).1.add_tcp_socket s h).1 := by
    unfold tcp_on_drop
    rw [hst, if_neg (fun hx => TcpState.noConfusion hx)]
  rw [hdrop, hadd]
  refine ⟨AList.lookup_insert _, ?_, ?_⟩
  · rw [AList.lookup_insert, Option.map_some', AList.lookup_insert]
  · intro ep' hep'
    dsimp only at hep'
    rcases eq_or_ne le le' with rfl | hll
    · rw [AList.lookup_insert] at hep'
      injection hep' with hep'
      subst hep'
      rw [hrem]
      dsimp only
      split
      · rw [AList.lookup_erase]
        exact Finset.not_mem_empty h
      · rw [AList.lookup_insert]
        exact Finset.not_mem_erase h _
    · rw [AList.lookup_insert_ne hll] at hep'
      rw [hrem] at hep'
      dsimp only at hep'
      split at hep'
      · rw [AList.lookup_erase] at hep'
        exact Option.noConfusion hep'
      · rw [AList.lookup_insert] at hep'
        injection hep' with hep'
        subst hep'
        exact Finset.not_mem_erase h _

/-- Witness for C7: the single listener at (*, 80) transitions to Established
with remote (9.9.9.9, 1234) and ends registered in the established map. -/
theorem c7_tcp_listen_to_established_witness :
    tcpSingleTable.rev_tcp.lookup 1 = some (⟨none, 80⟩, none) ∧
    (tcp_on_drop .Listen tcpEstablishedSocket tcpSingleTable 1).rev_tcp.lookup 1 =
      some (⟨none, 80⟩, some ⟨.ipv4 151587081, 1234⟩) :=
  ⟨by decide, (c7_tcp_listen_to_established tcpEstablishedSocket tcpSingleTable 1
    ⟨none, 80⟩ ⟨none, 80⟩ ⟨.ipv4 151587081, 1234⟩ ⟨{1}, ∅⟩
    rfl rfl rfl (by decide) rfl (by decide) (by decide)).1⟩


/-- C8: releasing a tracker whose dispatch-relevant state equals the captured
snapshot leaves the table exactly unchanged, for every socket kind. -/
theorem c8_noop_release_table_unchanged (t : DispatchTable)
    (d : Finset SocketHandle) (h : SocketHandle) :
    (∀ s : RawSocket, (trackerRelease rawOps (rawOps.new_state s) s t d h).1 = t) ∧
    (∀ s : UdpSocket, (trackerRelease udpOps (udpOps.new_state s) s t d h).1 = t) ∧
    (∀ s : TcpSocket, (trackerRelease tcpOps (tcpOps.new_state s) s t d h).1 = t) ∧
    (∀ s : Unit, (trackerRelease icmpOps (icmpOps.new_state s) s t d h).1 = t) ∧
    (∀ s : Unit, (trackerRelease dhcpv4Ops (dhcpv4Ops.new_state s) s t d h).1 = t) ∧
    (∀ s : Unit, (trackerRelease dnsOps (dnsOps.new_state s) s t d h).1 = t) := by
  refine ⟨?_, ?_, ?_, ?_, ?_, ?_⟩ <;> intro s <;> unfold trackerRelease <;> dsimp only
  · split
    · rfl
    · rfl
  · unfold udpOps udp_on_drop
    dsimp only
    rw [if_neg (show ¬(s.endpoint ≠ s.endpoint) from fun hx => hx rfl)]
    split
    · rfl
    · rfl
  · unfold tcpOps tcp_on_drop
    dsimp only
    rw [if_pos rfl]
    split
    · rfl
    · rfl
  · split
    · rfl
    · rfl
  · split
    · rfl
    · rfl
  · split
    · rfl
    · rfl

/-- C9: on tracker release the handle joins the dirty set, and the socket's
on-dirty-list flag is raised, exactly when the socket is dirty and not yet on
the list; a handle already flagged on-list is never re-inserted and a
non-dirty socket leaves set and flag untouched. -/
theorem c9_dirty_single_enqueue {T S : Type} (ops : TrackerOps T S) (st : S)
    (s : T) (t : DispatchTable) (d : Finset SocketHandle) (h : SocketHandle) :
    (ops.is_dirty s = true → ops.is_on_dirty_list s = false →
      (trackerRelease ops st s t d h).2.1 = insert h d ∧
      (trackerRelease ops st s t d h).2.2 = ops.set_on_dirty_list s true) ∧
    (ops.is_on_dirty_list s = true →
      (trackerRelease ops st s t d h).2.1 = d ∧
      (trackerRelease ops st s t d h).2.2 = s) ∧
    (ops.is_dirty s = false →
      (trackerRelease ops st s t d h).2.1 = d ∧
      (trackerRelease ops st s t d h).2.2 = s) ∧
    (∀ x, x ∈ (trackerRelease ops st s t d h).2.1 ↔
      x ∈ d ∨ (x = h ∧ ops.is_dirty s = true ∧ ops.is_on_dirty_list s = false)) := by
  unfold trackerRelease
  dsimp only
  by_cases hc : ops.is_on_dirty_list s = false ∧ ops.is_dirty s = true
  · rw [if_pos hc]
    refine ⟨fun _ _ => ⟨rfl, rfl⟩, ?_, ?_, ?_⟩
    · intro hx
      rw [hx] at hc
      exact Bool.noConfusion hc.1
    · intro hx
      rw [hx] at hc
      exact Bool.noConfusion hc.2
    · intro x
      rw [Finset.mem_insert]
      constructor
      · rintro (rfl | hx)
        · exact Or.inr ⟨rfl, hc.2, hc.1⟩
        · exact Or.inl hx
      · rintro (hx | ⟨rfl, _, _⟩)
        · exact Or.inr hx
        · exact Or.inl rfl
  · rw [if_neg hc]
    refine ⟨fun h1 h2 => absurd ⟨h2, h1⟩ hc, fun _ => ⟨rfl, rfl⟩,
      fun _ => ⟨rfl, rfl⟩, ?_⟩
    intro x
    constructor
    · exact fun hx => Or.inl hx
    · rintro (hx | ⟨rfl, h1, h2⟩)
      · exact hx
      · exact absurd ⟨h2, h1⟩ hc

/-- Witness for C9: a dirty socket not yet on the list is enqueued once. -/
theorem c9_dirty_single_enqueue_witness :
    (udpOps.is_dirty ⟨⟨none, 80⟩, true, false⟩ = true) ∧
    (trackerRelease udpOps ⟨none, 80⟩ ⟨⟨none, 80⟩, true, false⟩
      DispatchTable.empty ∅ 7).2.1 = insert 7 ∅ :=
  ⟨by decide, ((c9_dirty_single_enqueue udpOps ⟨none, 80⟩
    ⟨⟨none, 80⟩, true, false⟩ DispatchTable.empty ∅ 7).1 (by decide)
    (by decide)).1⟩

/-- C10: re-adding a handle that is already registered in the corresponding
sub-table fails with `AlreadyInUse`, even at an unchanged key whose occupant
is that very handle. -/
theorem c10_readd_registered_handle_fails (t : DispatchTable)
    (hr : Reachable t) :
    (∀ (s : RawSocket) (h : SocketHandle), h ∈ t.rev_raw →
      (t.add_raw_socket s h).2 = some .AlreadyInUse) ∧
    (∀ (s : UdpSocket) (h : SocketHandle) (k : IpListenEndpoint),
      t.rev_udp.lookup h = some k → s.endpoint = k →
      (t.add_udp_socket s h).2 = some .AlreadyInUse) ∧
    (∀ (s : TcpSocket) (h : SocketHandle) (le : IpListenEndpoint)
        (rm : Option IpEndpoint),
      t.rev_tcp.lookup h = some (le, rm) → s.effective_listen = some le →
      (t.add_tcp_socket s h).2 = some .AlreadyInUse) := by
  refine ⟨?_, ?_, ?_⟩
  · intro s h hmem
    unfold DispatchTable.add_raw_socket
    rw [if_neg (fun hc => hc.2 hmem)]
  · intro s h k hrev hk
    have hna := (invariant_of_reachable hr).2.2 h k hrev
    have hmem : h ∈ t.rev_udp := AList.lookup_isSome.mp (by rw [hrev]; rfl)
    unfold DispatchTable.add_udp_socket
    rw [if_neg (fun hc => hna (by rwa [hk] at hc)), if_neg (fun hc => hc.2 hmem)]
  · intro s h le rm hrev heff
    have hmem : h ∈ t.rev_tcp := AList.lookup_isSome.mp (by rw [hrev]; rfl)
    unfold DispatchTable.add_tcp_socket
    rw [heff]
    dsimp only
    rw [if_pos hmem]

/-- Witness for C10: re-adding the already-registered UDP socket 1 at its own
unchanged key fails. -/
theorem c10_readd_registered_handle_fails_witness :
    udpExampleTable.rev_udp.lookup 1 = some ⟨some (.ipv4 16909060), 80⟩ ∧
    (udpExampleTable.add_udp_socket udpSocketA 1).2 = some .AlreadyInUse :=
  ⟨by decide, (c10_readd_registered_handle_fails udpExampleTable
    udpExampleTable_reachable).2.1 udpSocketA 1 ⟨some (.ipv4 16909060), 80⟩
    (by decide) rfl⟩

/-- Witness for C8: releasing an unmutated TCP listener leaves the table
unchanged. -/
theorem c8_noop_release_table_unchanged_witness :
    (trackerRelease tcpOps (tcpOps.new_state tcpListenerSocket)
      tcpListenerSocket tcpSingleTable ∅ 1).1 = tcpSingleTable :=
  (c8_noop_release_table_unchanged tcpSingleTable ∅ 1).2.2.1 tcpListenerSocket

end Smoltcp
